import Mathlib

/-!
Verification of the lookuply/infrastructure log-monitoring subsystem.

The development shallowly embeds the Python sources under `src/monitor/`:
the seven log-line parsers (`parsers/*.py`), the aggregator state and its
operations (`dashboard.py`), and the per-line ingestion step of the monitor
(`lookuply-monitor.py`).

Conventions of the embedding:
* Strings are processed as `List Char`; Python's regular expressions are
  embedded as deterministic left-to-right scanners.  Each pattern used by
  the sources is of the restricted form in which every greedy class
  repetition is followed by a delimiter disjoint from the class (or by the
  end of the pattern), so Python's backtracking search coincides with
  maximal-munch scanning; `re.search` is the scanner tried at every suffix,
  leftmost first, and `re.match` is the scanner anchored at the start.
* Character classes (`\w`, `\d`, `\s`, upper/lower casing) are modelled at
  ASCII.
* `datetime.strptime` on an already shape-matched digit group is modelled
  by a calendar-validity check; an uncaught `ValueError` is modelled as
  `Except.error ()`, so a parser containing an unguarded `strptime` call
  returns `Except Unit (Option LogEntry)` while the remaining parsers
  return `Option LogEntry`.
* `datetime.now()` (ingestion-time timestamps) is passed as an explicit
  `now` argument.
* Python `dict` / `Counter` values are association lists with
  insertion-order update semantics, mirroring CPython dicts.
-/

/-- ASCII model of Python whitespace: the characters stripped by
`str.strip()` and matched by the regex class `\s`. -/
def isPySpace (c : Char) : Bool :=
  c = ' ' || c = '\t' || c = '\n' || c = '\r' || c = '\x0b' || c = '\x0c'

/-- ASCII model of the regex class `\d`. -/
def isPyDigit (c : Char) : Bool :=
  '0' ≤ c && c ≤ '9'

/-- ASCII model of the regex class `\w`. -/
def isPyWord (c : Char) : Bool :=
  isPyDigit c || ('a' ≤ c && c ≤ 'z') || ('A' ≤ c && c ≤ 'Z') || c = '_'

/-- ASCII model of the regex `.` metacharacter: any character but a newline. -/
def isDot (c : Char) : Bool :=
  c ≠ '\n'

/-- ASCII model of Python `str.strip()`. -/
def pyStrip (cs : List Char) : List Char :=
  ((cs.dropWhile isPySpace).reverse.dropWhile isPySpace).reverse

/-- ASCII model of Python `str.upper()`. -/
def pyUpper (cs : List Char) : List Char :=
  cs.map fun c => if 'a' ≤ c && c ≤ 'z' then Char.ofNat (c.toNat - 32) else c

/-- ASCII model of Python `str.lower()`. -/
def pyLower (cs : List Char) : List Char :=
  cs.map fun c => if 'A' ≤ c && c ≤ 'Z' then Char.ofNat (c.toNat + 32) else c

/-- Maximal munch of one-or-more characters of a class: the scanner for a
greedy `C+` regex repetition that is followed by a delimiter disjoint
from the class `C`. -/
def chomp1 (p : Char → Bool) (cs : List Char) : Option (List Char × List Char) :=
  if (cs.takeWhile p).isEmpty then none else some (cs.takeWhile p, cs.dropWhile p)

/-- Scanner for a regex literal: consumes exactly the given characters. -/
def lit : List Char → List Char → Option (List Char)
  | [], cs => some cs
  | _ :: _, [] => none
  | l :: ls, c :: cs => if c = l then lit ls cs else none

/-- Scanner for a counted repetition `C{n}`: exactly `n` characters of the
class. -/
def chompN (n : Nat) (p : Char → Bool) (cs : List Char) : Option (List Char × List Char) :=
  if (cs.take n).length = n ∧ (cs.take n).all p then some (cs.take n, cs.drop n) else none

/-- Model of `re.search`: try the anchored scanner at every suffix,
leftmost position first. -/
def reSearch (m : List Char → Option α) : List Char → Option α
  | [] => m []
  | c :: cs =>
    match m (c :: cs) with
    | some r => some r
    | none => reSearch m cs

/-- Numeric value of a digit group, as computed by Python `int`. -/
def natOfDigits (ds : List Char) : Nat :=
  ds.foldl (fun a c => a * 10 + (c.toNat - 48)) 0

/-- Substring test, as Python `needle in haystack`. -/
def isPrefixList : List Char → List Char → Bool
  | [], _ => true
  | _ :: _, [] => false
  | a :: as, b :: bs => a = b && isPrefixList as bs

/-- Substring containment, as Python `needle in haystack`. -/
def containsSub (needle : List Char) : List Char → Bool
  | [] => isPrefixList needle []
  | c :: cs => isPrefixList needle (c :: cs) || containsSub needle cs

/-- Timestamps as produced by `datetime.strptime` on the formats used by the
parsers (no fractional seconds, no timezone). -/
structure PyDateTime where
  year : Nat
  month : Nat
  day : Nat
  hour : Nat
  minute : Nat
  second : Nat
deriving DecidableEq

def isLeapYear (y : Nat) : Bool :=
  (y % 4 = 0 && y % 100 ≠ 0) || y % 400 = 0

def daysInMonth (y m : Nat) : Nat :=
  if m = 2 then (if isLeapYear y then 29 else 28)
  else if m = 4 ∨ m = 6 ∨ m = 9 ∨ m = 11 then 30
  else 31

/-- Model of `datetime.strptime` applied to digit groups that already match
the format's shape: it succeeds exactly when the digits denote a valid
calendar date and time, and raises `ValueError` (here: `none`) otherwise. -/
def mkDateTime (y mo d h mi s : Nat) : Option PyDateTime :=
  if 1 ≤ y ∧ 1 ≤ mo ∧ mo ≤ 12 ∧ 1 ≤ d ∧ d ≤ daysInMonth y mo ∧ h ≤ 23 ∧ mi ≤ 59 ∧ s ≤ 59
  then some ⟨y, mo, d, h, mi, s⟩ else none

/-- Values stored in a `LogEntry.extra` mapping (Python mixes `str` and
`int` values there). -/
inductive PyVal where
  | s (v : String)
  | i (v : Nat)
deriving DecidableEq

/-- `parsers/__init__.py`: the normalized record all parsers produce.  The
dataclass declares `extra: Optional[dict] = field(default_factory=dict)`,
so a constructor call that omits `extra` yields an empty mapping
(`some []`), not `None` (`none`). -/
structure LogEntry where
  timestamp : PyDateTime
  service : String
  level : String
  message : String
  extra : Option (List (String × PyVal)) := some []
deriving DecidableEq

/-- First-match lookup in an association list (Python `dict` access; keys
are unique, so first match is the match). -/
def lookupKey : List (String × β) → String → Option β
  | [], _ => none
  | (k', v) :: rest, k => if k' = k then some v else lookupKey rest k

/-! ## A linear scanner for the restricted regexes of the parsers

Every pattern in `src/monitor/parsers/` is (up to the one lazy segment of
the nginx-error pattern, handled separately) a sequence of literals,
counted digit groups `\d{n}` and greedy one-or-more class repetitions in
which each repetition is followed by a delimiter outside its class, so
backtracking never changes the outcome and the pattern can be run as a
single left-to-right pass.  A pattern is transliterated token by token;
capture groups are collected in order. -/

inductive Tok where
  /-- a literal character sequence -/
  | lit (s : List Char)
  /-- greedy `C+`, not a capture group -/
  | cls1 (p : Char → Bool)
  /-- greedy `(C+)` capture group -/
  | grp1 (p : Char → Bool)
  /-- counted `(C{n})` capture group -/
  | grpN (n : Nat) (p : Char → Bool)

/-- Run a token sequence at the start of the input, accumulating capture
groups; returns the captures in order plus the unconsumed rest. -/
def runToks : List Tok → List Char → List (List Char) → Option (List (List Char) × List Char)
  | [], cs, acc => some (acc.reverse, cs)
  | .lit l :: ts, cs, acc =>
    match lit l cs with
    | none => none
    | some r => runToks ts r acc
  | .cls1 p :: ts, cs, acc =>
    match chomp1 p cs with
    | none => none
    | some (_, r) => runToks ts r acc
  | .grp1 p :: ts, cs, acc =>
    match chomp1 p cs with
    | none => none
    | some (g, r) => runToks ts r (g :: acc)
  | .grpN n p :: ts, cs, acc =>
    match chompN n p cs with
    | none => none
    | some (g, r) => runToks ts r (g :: acc)

/-- `Y-M-D H:M:S` timestamp digit groups (`\d{4}-\d{2}-\d{2} \d{2}:\d{2}:\d{2}`);
the Python patterns capture the timestamp as one group and `strptime`
re-splits it, here the six digit groups are captured directly. -/
def tsToks (sep : Char) : List Tok :=
  [.grpN 4 isPyDigit, .lit [sep], .grpN 2 isPyDigit, .lit [sep], .grpN 2 isPyDigit,
   .lit [' '], .grpN 2 isPyDigit, .lit [':'], .grpN 2 isPyDigit, .lit [':'], .grpN 2 isPyDigit]

/-! ## Parser: uvicorn (`parsers/uvicorn.py`) -/

/-- The uvicorn pattern
`(\w+):\s+([^\s]+)\s+-\s+"(\w+)\s+([^\s]+)\s+HTTP/[\d.]+"\s+(\d+)`. -/
def uvToks : List Tok :=
  [.grp1 isPyWord, .lit [':'], .cls1 isPySpace,
   .grp1 (fun c => !isPySpace c), .cls1 isPySpace, .lit ['-'], .cls1 isPySpace, .lit ['"'],
   .grp1 isPyWord, .cls1 isPySpace, .grp1 (fun c => !isPySpace c), .cls1 isPySpace,
   .lit "HTTP/".data, .cls1 (fun c => isPyDigit c || c = '.'), .lit ['"'],
   .cls1 isPySpace, .grp1 isPyDigit]

/-- The level-normalization dict shared verbatim by `uvicorn.py` and
`celery.py`:
`{"INFO": "INFO", "WARNING": "WARNING", "ERROR": "ERROR",
  "CRITICAL": "CRITICAL", "DEBUG": "INFO"}.get(level_str.upper(), "INFO")`. -/
def levelMap (s : String) : String :=
  if s = "INFO" then "INFO"
  else if s = "WARNING" then "WARNING"
  else if s = "ERROR" then "ERROR"
  else if s = "CRITICAL" then "CRITICAL"
  else if s = "DEBUG" then "INFO"
  else "INFO"

/-- The status-code level derivation written out (identically) in
`uvicorn.py`, `gin.py` and `nginx.py` (access): `>= 500` error, `>= 400`
warning, otherwise info. -/
def statusLevel (status : Nat) : String :=
  if status ≥ 500 then "ERROR" else if status ≥ 400 then "WARNING" else "INFO"

/-- `UvicornParser.parse`. -/
def uvicornParse (now : PyDateTime) (line : String) : Option LogEntry :=
  match reSearch (fun cs => runToks uvToks cs []) (pyStrip line.data) with
  | some ([lvlTok, client, method, path, status], _) =>
    let level0 := levelMap (String.mk (pyUpper lvlTok))
    let statusN := natOfDigits status
    let level := if level0 = "INFO" then statusLevel statusN else level0
    some
      { timestamp := now
        service := "api"  -- placeholder, per the source comment
        level := level
        message := String.mk (method ++ [' '] ++ path ++ " → ".data ++ status)
        extra := some
          [("method", .s (String.mk method)), ("path", .s (String.mk path)),
           ("status", .i statusN), ("client", .s (String.mk client))] }
  | _ => none

/-! ## Parser: coordinator (`parsers/coordinator.py`) -/

/-- The coordinator pattern
`(\d{4}-\d{2}-\d{2} \d{2}:\d{2}:\d{2}) - (\w+) - (.+)`, used anchored
(`re.match`). -/
def coordToks : List Tok :=
  tsToks '-' ++ [.lit " - ".data, .grp1 isPyWord, .lit " - ".data, .grp1 isDot]

/-- `CoordinatorParser.parse`.  The `strptime` call is guarded by
`try/except ValueError`: an invalid calendar date yields `None`.  The
level token is passed through literally, with no normalization. -/
def coordinatorParse (line : String) : Option LogEntry :=
  match runToks coordToks (pyStrip line.data) [] with
  | some ([y, mo, d, h, mi, s, lvlTok, msg], _) =>
    match mkDateTime (natOfDigits y) (natOfDigits mo) (natOfDigits d)
        (natOfDigits h) (natOfDigits mi) (natOfDigits s) with
    | none => none
    | some ts =>
      some
        { timestamp := ts
          service := "coordinator"
          level := String.mk lvlTok
          message := String.mk msg }
  | _ => none

/-! ## Parser: gin (`parsers/gin.py`) -/

/-- The gin pattern
`\[GIN\]\s+(\d{4}/\d{2}/\d{2})\s+-\s+(\d{2}:\d{2}:\d{2})\s+\|\s+(\d+)\s+\|[^|]+\|[^|]+\|\s+(\w+)\s+"([^"]+)"`. -/
def ginToks : List Tok :=
  [.lit "[GIN]".data, .cls1 isPySpace,
   .grpN 4 isPyDigit, .lit ['/'], .grpN 2 isPyDigit, .lit ['/'], .grpN 2 isPyDigit,
   .cls1 isPySpace, .lit ['-'], .cls1 isPySpace,
   .grpN 2 isPyDigit, .lit [':'], .grpN 2 isPyDigit, .lit [':'], .grpN 2 isPyDigit,
   .cls1 isPySpace, .lit ['|'], .cls1 isPySpace, .grp1 isPyDigit, .cls1 isPySpace, .lit ['|'],
   .cls1 (fun c => c ≠ '|'), .lit ['|'], .cls1 (fun c => c ≠ '|'), .lit ['|'],
   .cls1 isPySpace, .grp1 isPyWord, .cls1 isPySpace, .lit ['"'],
   .grp1 (fun c => c ≠ '"'), .lit ['"']]

/-- `GinParser.parse`.  The `strptime` call is NOT guarded: a digit-shaped
but calendar-invalid date/time raises `ValueError` out of `parse`
(modelled as `Except.error ()`). -/
def ginParse (line : String) : Except Unit (Option LogEntry) :=
  match reSearch (fun cs => runToks ginToks cs []) (pyStrip line.data) with
  | some ([y, mo, d, h, mi, s, status, method, path], _) =>
    match mkDateTime (natOfDigits y) (natOfDigits mo) (natOfDigits d)
        (natOfDigits h) (natOfDigits mi) (natOfDigits s) with
    | none => .error ()  -- uncaught ValueError from strptime
    | some ts =>
      let statusN := natOfDigits status
      .ok (some
        { timestamp := ts
          service := "ai_evaluator"  -- placeholder, per the source comment
          level := statusLevel statusN
          message := String.mk (method ++ [' '] ++ path ++ " → ".data ++ status)
          extra := some
            [("method", .s (String.mk method)), ("path", .s (String.mk path)),
             ("status", .i statusN)] })
  | _ => .ok none

/-! ## Parser: nginx access (`parsers/nginx.py`, `NginxAccessParser`) -/

/-- The nginx access pattern `"(\w+) ([^ ]+) HTTP/[\d.]+" (\d{3})`
(searched in the raw line, which is not stripped). -/
def nginxAccessToks : List Tok :=
  [.lit ['"'], .grp1 isPyWord, .lit [' '], .grp1 (fun c => c ≠ ' '), .lit " HTTP/".data,
   .cls1 (fun c => isPyDigit c || c = '.'), .lit ['"'], .lit [' '], .grpN 3 isPyDigit]

/-- `NginxAccessParser.parse`. -/
def nginxAccessParse (now : PyDateTime) (line : String) : Option LogEntry :=
  match reSearch (fun cs => runToks nginxAccessToks cs []) line.data with
  | some ([method, path, status], _) =>
    let statusN := natOfDigits status
    some
      { timestamp := now  -- source comment: nginx timestamp not parsed
        service := "nginx"
        level := statusLevel statusN
        message := String.mk (method ++ [' '] ++ path ++ " → ".data ++ status)
        extra := some
          [("method", .s (String.mk method)), ("path", .s (String.mk path)),
           ("status", .i statusN)] }
  | _ => none

/-! ## Parser: nginx error (`parsers/nginx.py`, `NginxErrorParser`) -/

/-- The anchored prefix of the nginx error pattern
`(\d{4}/\d{2}/\d{2} \d{2}:\d{2}:\d{2}) \[(\w+)\] ` (before the lazy
segment). -/
def nginxErrorToks : List Tok :=
  tsToks '/' ++ [.lit " [".data, .grp1 isPyWord, .lit "] ".data]

/-- The lazy segment `.+?: (.+)` of the nginx error pattern: consume at
least one non-newline character, as few as possible, up to the first
`: ` that is followed by a nonempty final group; return that group. -/
def lazyDotColonSpace : List Char → Option (List Char)
  | [] => none
  | c :: cs =>
    if ¬ isDot c then none
    else
      match cs with
      | ':' :: ' ' :: rest =>
        if (rest.takeWhile isDot).isEmpty then lazyDotColonSpace cs
        else some (rest.takeWhile isDot)
      | _ => lazyDotColonSpace cs

/-- `NginxErrorParser.parse`.  The `strptime` call is guarded
(`try/except ValueError`); the level token is uppercased. -/
def nginxErrorParse (line : String) : Option LogEntry :=
  match runToks nginxErrorToks (pyStrip line.data) [] with
  | some ([y, mo, d, h, mi, s, lvlTok], rest) =>
    match lazyDotColonSpace rest with
    | none => none
    | some msg =>
      match mkDateTime (natOfDigits y) (natOfDigits mo) (natOfDigits d)
          (natOfDigits h) (natOfDigits mi) (natOfDigits s) with
      | none => none
      | some ts =>
        some
          { timestamp := ts
            service := "nginx"
            level := String.mk (pyUpper lvlTok)
            message := String.mk msg }
  | _ => none

/-! ## Parser: celery (`parsers/celery.py`) -/

/-- The celery structured pattern
`\[(\d{4}-\d{2}-\d{2} \d{2}:\d{2}:\d{2}),\d+:\s+(\w+)/[^\]]+\]\s+(.+)`,
used anchored (`re.match`). -/
def celeryToks : List Tok :=
  [.lit ['[']] ++ tsToks '-' ++
  [.lit [','], .cls1 isPyDigit, .lit [':'], .cls1 isPySpace,
   .grp1 isPyWord, .lit ['/'], .cls1 (fun c => c ≠ ']'), .lit [']'],
   .cls1 isPySpace, .grp1 isDot]

/-- The celery fallback pattern `(\w+(?:Error|Exception)):\s*(.+)` anchored
at one position: the group `\w+(?:Error|Exception)` followed by `:` is a
maximal word run that ends in `Error` (with a nonempty `\w+` part, hence
longer than 5) or in `Exception` (longer than 9) -- the run cannot stop
early because the following `:` is not a word character.  Returns the
error type and the message group. -/
def celeryErrAt (cs : List Char) : Option (List Char × List Char) :=
  match chomp1 isPyWord cs with
  | none => none
  | some (w, r) =>
    if ("Error".data.isSuffixOf w && 5 < w.length) ||
       ("Exception".data.isSuffixOf w && 9 < w.length) then
      match r with
      | ':' :: r2 =>
        let m := (r2.dropWhile isPySpace).takeWhile isDot
        if m.isEmpty then none else some (w, m)
      | _ => none
    else none

/-- `CeleryParser.parse`.  The structured branch's `strptime` call is NOT
guarded: a digit-shaped but calendar-invalid timestamp raises
`ValueError` out of `parse` (modelled as `Except.error ()`).  Lines that
do not match the structured pattern take the keyword-heuristic fallback
branch and always yield an entry. -/
def celeryParse (now : PyDateTime) (line : String) : Except Unit (Option LogEntry) :=
  let l := pyStrip line.data
  if l.isEmpty then .ok none
  else
    match runToks celeryToks l [] with
    | some ([y, mo, d, h, mi, s, lvlTok, msg], _) =>
      match mkDateTime (natOfDigits y) (natOfDigits mo) (natOfDigits d)
          (natOfDigits h) (natOfDigits mi) (natOfDigits s) with
      | none => .error ()  -- uncaught ValueError from strptime
      | some ts =>
        .ok (some
          { timestamp := ts
            service := "celery"
            level := levelMap (String.mk (pyUpper lvlTok))
            message := String.mk msg })
    | _ =>
      let level :=
        if containsSub "Error:".data l || containsSub "Exception:".data l ||
           containsSub "Traceback".data l || containsSub "raise ".data l then "ERROR"
        else if containsSub "warning".data (pyLower l) ||
                containsSub "warn".data (pyLower l) then "WARNING"
        else "INFO"
      let message :=
        if containsSub "Error:".data l || containsSub "Exception:".data l then
          match reSearch celeryErrAt l with
          | some (etype, emsg) => etype ++ ": ".data ++ emsg
          | none => l
        else l
      .ok (some
        { timestamp := now
          service := "celery"
          level := level
          message := String.mk message })

/-! ## Parser: crawler (`parsers/crawler.py`) -/

/-- The crawler link-discovery pattern
`Discovered (\d+) links from ([^:]+): (\d+) new, (\d+) duplicates`. -/
def crawlerToks : List Tok :=
  [.lit "Discovered ".data, .grp1 isPyDigit, .lit " links from ".data,
   .grp1 (fun c => c ≠ ':'), .lit ": ".data, .grp1 isPyDigit, .lit " new, ".data,
   .grp1 isPyDigit, .lit " duplicates".data]

/-- `CrawlerParser.parse`: keyword heuristics for the level on every
nonempty line, plus optional structured link-discovery extraction.
`extra` is explicitly `extra if extra else None`, so an entry without
structured fields carries `none`, never an empty mapping. -/
def crawlerParse (now : PyDateTime) (line : String) : Option LogEntry :=
  let l := pyStrip line.data
  if l.isEmpty then none
  else
    let level :=
      if containsSub "error".data (pyLower l) || containsSub "exception".data (pyLower l) ||
         containsSub "failed".data (pyLower l) || containsSub "traceback".data (pyLower l) then "ERROR"
      else if containsSub "warning".data (pyLower l) ||
              containsSub "warn".data (pyLower l) then "WARNING"
      else "INFO"
    match reSearch (fun cs => runToks crawlerToks cs []) l with
    | some ([total, url, nw, dup], _) =>
      some
        { timestamp := now
          service := "crawler"
          level := level
          message := String.mk ("Discovered ".data ++ nw ++ " new links from ".data ++
            url.take 50 ++ "...".data)
          extra := some
            [("total_links", .i (natOfDigits total)), ("new_links", .i (natOfDigits nw)),
             ("duplicate_links", .i (natOfDigits dup)), ("source_url", .s (String.mk url))] }
    | _ =>
      some
        { timestamp := now
          service := "crawler"
          level := level
          message := String.mk l
          extra := none }

/-! ## Aggregator state (`dashboard.py`) -/

/-- Append on the right to a `collections.deque(maxlen=cap)`: keep the
last `cap` elements of the extended sequence (oldest first). -/
def pushBounded (cap : Nat) (x : α) (q : List α) : List α :=
  (q ++ [x]).drop (q.length + 1 - cap)

/-- Python `dict` assignment `d[k] = v`: update in place if the key is
present, else append (insertion order preserved). -/
def setKey : List (String × β) → String → β → List (String × β)
  | [], k, v => [(k, v)]
  | (k', v') :: rest, k, v =>
    if k' = k then (k, v) :: rest else (k', v') :: setKey rest k v

/-- `collections.Counter` increment `c[k] += 1`: update in place if the
key is present, else append with count 1. -/
def bumpCounter : List (PyVal × Nat) → PyVal → List (PyVal × Nat)
  | [], k => [(k, 1)]
  | (k', n) :: rest, k =>
    if k' = k then (k', n + 1) :: rest else (k', n) :: bumpCounter rest k

/-- `Counter` read: a missing key counts 0. -/
def counterVal : List (PyVal × Nat) → PyVal → Nat
  | [], _ => 0
  | (k', n) :: rest, k => if k' = k then n else counterVal rest k

/-- The mutable state of `Dashboard` (`dashboard.py`, `__init__`): the two
bounded deques, the request counter, the service-health dict, the
configured capacities and the last fetched external stats (`ai_stats`,
a decoded JSON object, or `None` before the first success). -/
structure Dashboard where
  errors : List LogEntry
  logs : List LogEntry
  request_stats : List (PyVal × Nat)
  service_status : List (String × String)
  max_errors : Nat
  max_logs : Nat
  ai_stats : Option (List (String × Nat))
deriving DecidableEq

/-- `Dashboard.__init__(max_errors=10, max_logs=5, ...)`. -/
def Dashboard.mkInit (max_errors max_logs : Nat) : Dashboard :=
  ⟨[], [], [], [], max_errors, max_logs, none⟩

/-- `Dashboard.add_log`.  The request counter is touched only when
`entry.extra and "path" in entry.extra` is truthy: `extra` must be a
nonempty mapping that contains a `"path"` key. -/
def addLog (st : Dashboard) (e : LogEntry) : Dashboard :=
  { st with
    logs := pushBounded st.max_logs e st.logs
    errors :=
      if e.level = "ERROR" ∨ e.level = "CRITICAL" then
        pushBounded st.max_errors e st.errors
      else st.errors
    service_status := setKey st.service_status e.service "healthy"
    request_stats :=
      match e.extra with
      | none => st.request_stats
      | some m =>
        if m.isEmpty then st.request_stats
        else
          match lookupKey m "path" with
          | some v => bumpCounter st.request_stats v
          | none => st.request_stats }

/-- The observable outcome of the HTTP GET issued by
`Dashboard.fetch_ai_stats`: an exception (connection error / timeout), or
a response with a status code and a decoded JSON object body. -/
inductive FetchOutcome where
  | exc
  | resp (status : Nat) (body : List (String × Nat))
deriving DecidableEq

/-- A poll that `fetch_ai_stats` treats as failed: an exception or a
non-200 status. -/
def FetchOutcome.failed : FetchOutcome → Prop
  | .exc => True
  | .resp status _ => status ≠ 200

instance : DecidablePred FetchOutcome.failed := by
  intro o
  cases o with
  | exc => exact .isTrue trivial
  | resp status body => exact inferInstanceAs (Decidable (status ≠ 200))

/-- `Dashboard.fetch_ai_stats`: stores the body on a 200 response and
leaves the state untouched on any failure. -/
def fetchAiStats (st : Dashboard) (o : FetchOutcome) : Dashboard :=
  match o with
  | .exc => st
  | .resp status body => if status = 200 then { st with ai_stats := some body } else st

/-- What the AI-progress panel displays (`Dashboard.render_ai_progress`),
omitting presentation detail: the muted connecting placeholder, or the
five counters and their total.  The completion percentage (a float) is
not modelled. -/
inductive AiPanel where
  | connecting
  | stats (pending processing evaluated failed workers total : Nat)
deriving DecidableEq

/-- `Dashboard.render_ai_progress`: fetches first (the fetch is embedded
in the draw), then draws the connecting placeholder when `ai_stats` is
falsy -- which is the case both for `None` and for an empty object. -/
def renderAiProgress (st : Dashboard) (o : FetchOutcome) : Dashboard × AiPanel :=
  let st' := fetchAiStats st o
  match st'.ai_stats with
  | none => (st', .connecting)
  | some [] => (st', .connecting)
  | some body =>
    let pending := (lookupKey body "pending_pages").getD 0
    let processing := (lookupKey body "processing_pages").getD 0
    let evaluated := (lookupKey body "evaluated_pages").getD 0
    let failed := (lookupKey body "failed_pages").getD 0
    let workers := (lookupKey body "workers_active").getD 0
    (st', .stats pending processing evaluated failed workers
      (pending + processing + evaluated + failed))

/-- One aggregator-facing operation of the running system: an ingestion
worker records an entry, or a render tick polls the external stats
endpoint (the rendering itself reads but never writes the four
collections). -/
inductive AggOp where
  | record (e : LogEntry)
  | poll (o : FetchOutcome)

/-- Effect of one operation on the aggregator state. -/
def aggStep (st : Dashboard) : AggOp → Dashboard
  | .record e => addLog st e
  | .poll o => fetchAiStats st o

/-! ## Ingestion (`lookuply-monitor.py`) -/

/-- The parser kinds instantiated by `LogMonitor.__init__`. -/
inductive ParserKind where
  | uvicorn | celery | crawler | gin | nginxAccess | nginxError
deriving DecidableEq

/-- The service-name-to-parser dict built in `LogMonitor.__init__`. -/
def parserFor (service : String) : Option ParserKind :=
  if service = "coordinator" then some .uvicorn
  else if service = "search_api" then some .uvicorn
  else if service = "celery" then some .celery
  else if service = "crawler" then some .crawler
  else if service = "ai_evaluator" then some .gin
  else if service = "nginx_access" then some .nginxAccess
  else if service = "nginx_error" then some .nginxError
  else none

/-- Uniform view of the seven parsers: `Except.error ()` is an uncaught
exception escaping `parse`. -/
def runParser : ParserKind → PyDateTime → String → Except Unit (Option LogEntry)
  | .uvicorn, now, l => .ok (uvicornParse now l)
  | .celery, now, l => celeryParse now l
  | .crawler, now, l => .ok (crawlerParse now l)
  | .gin, _, l => ginParse l
  | .nginxAccess, now, l => .ok (nginxAccessParse now l)
  | .nginxError, _, l => .ok (nginxErrorParse l)

/-- One nonempty line reaching a worker configured with `service` (the
shared body of `LogMonitor.follow_docker_logs` and `LogMonitor.tail_file`):
look the parser up by the configured service name, parse, and on success
record the entry -- unchanged, with whatever `service` field the parser
set.  An escaped parser exception propagates out of the per-line loop. -/
def ingestLine (service : String) (now : PyDateTime) (line : String) (st : Dashboard) :
    Except Unit Dashboard :=
  match parserFor service with
  | none => .ok st
  | some k =>
    match runParser k now line with
    | .error u => .error u
    | .ok none => .ok st
    | .ok (some e) => .ok (addLog st e)

/-- The four standard levels of the `LogEntry` data model. -/
def stdLevel (s : String) : Prop :=
  s = "INFO" ∨ s = "WARNING" ∨ s = "ERROR" ∨ s = "CRITICAL"

instance : DecidablePred stdLevel := by
  intro s
  unfold stdLevel
  infer_instance

/-! ## Helper lemmas -/

theorem lookupKey_setKey_self (d : List (String × β)) (k : String) (v : β) :
    lookupKey (setKey d k v) k = some v := by
  induction d with
  | nil => simp [setKey, lookupKey]
  | cons hd tl ih =>
    obtain ⟨k', v'⟩ := hd
    by_cases h : k' = k
    · subst h
      simp [setKey, lookupKey]
    · simp [setKey, lookupKey, h, ih]

theorem lookupKey_setKey_ne (d : List (String × β)) (k : String) (v : β) (s : String)
    (h : s ≠ k) : lookupKey (setKey d k v) s = lookupKey d s := by
  induction d with
  | nil => simp [setKey, lookupKey, Ne.symm h]
  | cons hd tl ih =>
    obtain ⟨k', v'⟩ := hd
    by_cases hk : k' = k
    · subst hk
      simp [setKey, lookupKey, Ne.symm h]
    · simp [setKey, lookupKey, hk, ih]

theorem counterVal_bump_self (m : List (PyVal × Nat)) (k : PyVal) :
    counterVal (bumpCounter m k) k = counterVal m k + 1 := by
  induction m with
  | nil => simp [bumpCounter, counterVal]
  | cons hd tl ih =>
    obtain ⟨k', n⟩ := hd
    by_cases h : k' = k
    · subst h
      simp [bumpCounter, counterVal]
    · simp [bumpCounter, counterVal, h, ih]

theorem counterVal_bump_ne (m : List (PyVal × Nat)) (k p : PyVal)
    (h : p ≠ k) : counterVal (bumpCounter m k) p = counterVal m p := by
  induction m with
  | nil => simp [bumpCounter, counterVal, Ne.symm h]
  | cons hd tl ih =>
    obtain ⟨k', n⟩ := hd
    by_cases hk : k' = k
    · subst hk
      simp [bumpCounter, counterVal, Ne.symm h]
    · simp [bumpCounter, counterVal, hk, ih]

theorem pushBounded_length (cap : Nat) (x : α) (q : List α) :
    (pushBounded cap x q).length = min (q.length + 1) cap := by
  simp [pushBounded]
  omega

theorem foldl_pushBounded (cap : Nat) (es : List α) (q : List α) (hq : q.length ≤ cap) :
    es.foldl (fun acc e => pushBounded cap e acc) q =
      (q ++ es).drop (q.length + es.length - cap) := by
  induction es generalizing q with
  | nil =>
    have h0 : q.length - cap = 0 := by omega
    simp [h0]
  | cons e es ih =>
    have hlen : (pushBounded cap e q).length ≤ cap := by
      rw [pushBounded_length]
      omega
    rw [List.foldl_cons, ih (pushBounded cap e q) hlen]
    have h1 : ((q ++ [e]) ++ es).drop (q.length + 1 - cap) = pushBounded cap e q ++ es := by
      rw [pushBounded]
      exact List.drop_append_of_le_length
        (by simp only [List.length_append, List.length_cons, List.length_nil]; omega)
    rw [← h1, List.drop_drop]
    have h2 : (q ++ [e]) ++ es = q ++ e :: es := by simp
    rw [h2]
    congr 1
    rw [pushBounded_length]
    simp only [List.length_cons]
    omega

theorem addLog_max_errors (st : Dashboard) (e : LogEntry) :
    (addLog st e).max_errors = st.max_errors := rfl

theorem foldl_addLog_max_errors (st : Dashboard) (es : List LogEntry) :
    (es.foldl addLog st).max_errors = st.max_errors := by
  induction es generalizing st with
  | nil => rfl
  | cons e es ih => rw [List.foldl_cons, ih, addLog_max_errors]

theorem foldl_addLog_errors (st : Dashboard) (es : List LogEntry)
    (h : ∀ e ∈ es, e.level = "ERROR" ∨ e.level = "CRITICAL") :
    (es.foldl addLog st).errors =
      es.foldl (fun q e => pushBounded st.max_errors e q) st.errors := by
  induction es generalizing st with
  | nil => rfl
  | cons e es ih =>
    rw [List.foldl_cons, List.foldl_cons,
      ih (addLog st e) (fun x hx => h x (List.mem_cons_of_mem e hx))]
    have he : (addLog st e).errors = pushBounded st.max_errors e st.errors := by
      have hl := h e (List.mem_cons_self e es)
      simp only [addLog]
      rw [if_pos hl]
    rw [addLog_max_errors, he]

theorem foldl_addLog_errors_length (st : Dashboard) (es : List LogEntry)
    (hst : st.errors.length ≤ st.max_errors) :
    (es.foldl addLog st).errors.length ≤ st.max_errors := by
  induction es generalizing st with
  | nil => exact hst
  | cons e es ih =>
    rw [List.foldl_cons]
    have hstep : (addLog st e).errors.length ≤ (addLog st e).max_errors := by
      rw [addLog_max_errors]
      by_cases h : e.level = "ERROR" ∨ e.level = "CRITICAL"
      · simp only [addLog, h, if_pos, pushBounded_length]
        omega
      · simp only [addLog, h, if_neg, ite_false]
        exact hst
    have := ih (addLog st e) (by rw [addLog_max_errors] at hstep ⊢; exact hstep)
    rwa [addLog_max_errors] at this

/-- The shared level-normalization map only returns standard levels. -/
theorem levelMap_std (s : String) :
    levelMap s = "INFO" ∨ levelMap s = "WARNING" ∨ levelMap s = "ERROR" ∨
      levelMap s = "CRITICAL" := by
  unfold levelMap
  repeat' split
  all_goals simp

/-- The status-derived level is always a standard level. -/
theorem statusLevel_std (n : Nat) :
    statusLevel n = "INFO" ∨ statusLevel n = "WARNING" ∨ statusLevel n = "ERROR" ∨
      statusLevel n = "CRITICAL" := by
  unfold statusLevel
  repeat' split
  all_goals simp

theorem levelMap_stdLevel (s : String) : stdLevel (levelMap s) := by
  unfold stdLevel
  exact levelMap_std s

theorem statusLevel_stdLevel (n : Nat) : stdLevel (statusLevel n) := by
  unfold stdLevel
  exact statusLevel_std n

/-! ## Claim C1 -/

/-- Claim C1 (code bug): the claim requires every line to yield either a
prescribed LogEntry (for grammar-matching lines -- for celery that
includes the documented keyword fallback) or absent, but the celery
parser raises `ValueError` out of `parse` on a line whose digits match
the structured pattern while denoting no valid date (month 13 here): the
unguarded `strptime` call at `celery.py:28`.  The line therefore yields
neither a LogEntry nor absent. -/
theorem c1_celery_invalid_date_raises :
    celeryParse ⟨2025, 12, 11, 20, 40, 0⟩
      "[2025-13-10 10:00:00,123: INFO/MainProcess] task done" = .error () := by
  rfl

/-! ## Claim C2 -/

/-- Claim C2 (code bug): the claim states that every parser returns a
LogEntry or absent without raising, including on date/time digits that
match the pattern but denote no valid calendar date; the gin parser
raises `ValueError` out of `parse` on such a line (month 13, hour 99):
the unguarded `strptime` call at `gin.py:28`. -/
theorem c2_gin_invalid_date_raises :
    ginParse
      "[GIN] 2025/13/45 - 99:99:99 | 200 |     294.081us |             ::1 | GET      \"/api/tags\"" =
      .error () := by
  rfl

/-! ## Claim C3 -/

/-- Claim C3 (code bug): a worker configured with service name
`"coordinator"` ingests a uvicorn line; the claim (and the source's own
comments, `uvicorn.py:47` and `gin.py:43`: "Will be overridden by
monitor") requires the recorded entry to carry the worker's configured
service name, but neither `follow_docker_logs` nor `tail_file` ever
overrides `entry.service`, so the aggregator records the parser's
hard-coded placeholder `"api"`.  Consequently the health dict gains the
key `"api"` -- which `render_status` never displays -- and the configured
service `"coordinator"` stays unknown forever. -/
theorem c3_service_not_overridden :
    ∃ st : Dashboard,
      ingestLine "coordinator" ⟨2025, 12, 11, 20, 40, 0⟩
        "INFO:     172.18.0.7:35800 - \"POST /api/v1/urls/159356/crawling HTTP/1.1\" 200 OK"
        (Dashboard.mkInit 10 5) = .ok st ∧
      st.logs.map LogEntry.service = ["api"] ∧
      (["api"] : List String) ≠ ["coordinator"] ∧
      lookupKey st.service_status "coordinator" = none ∧
      lookupKey st.service_status "api" = some "healthy" := by
  refine ⟨_, rfl, rfl, by decide, rfl, rfl⟩

/-! ## Claim C4 -/

/-- Claim C4 (counterexample): the coordinator parser passes the line's
level token through literally, so a `DEBUG` line yields a LogEntry whose
level is outside {INFO, WARNING, ERROR, CRITICAL}, contradicting the
claim that every parser-produced entry carries one of the four levels. -/
theorem c4_counterexample :
    ∃ e : LogEntry,
      coordinatorParse "2025-12-10 10:30:45 - DEBUG - starting scheduler" = some e ∧
      ¬ stdLevel e.level := by
  refine ⟨_, rfl, by decide⟩

/-- Claim C4 (amended): every LogEntry produced by the celery, crawler,
uvicorn, gin and nginx-access parsers has a level among INFO, WARNING,
ERROR, CRITICAL; the coordinator and nginx-error parsers instead pass
the line's literal (for nginx-error: uppercased) level token through,
which may lie outside the set. -/
theorem c4_amended (now : PyDateTime) (line : String) (e : LogEntry) :
    (celeryParse now line = .ok (some e) → stdLevel e.level) ∧
    (crawlerParse now line = some e → stdLevel e.level) ∧
    (uvicornParse now line = some e → stdLevel e.level) ∧
    (ginParse line = .ok (some e) → stdLevel e.level) ∧
    (nginxAccessParse now line = some e → stdLevel e.level) := by
  refine ⟨?_, ?_, ?_, ?_, ?_⟩
  · intro h
    unfold celeryParse at h
    dsimp only at h
    split at h
    · simp at h
    · split at h
      · split at h
        · simp at h
        · simp only [Except.ok.injEq, Option.some.injEq] at h
          subst h
          exact levelMap_stdLevel _
      · simp only [Except.ok.injEq, Option.some.injEq] at h
        subst h
        dsimp only
        split
        · exact Or.inr (Or.inr (Or.inl rfl))
        · split
          · exact Or.inr (Or.inl rfl)
          · exact Or.inl rfl
  · intro h
    unfold crawlerParse at h
    dsimp only at h
    split at h
    · simp at h
    · split at h <;>
      · simp only [Option.some.injEq] at h
        subst h
        dsimp only
        split
        · exact Or.inr (Or.inr (Or.inl rfl))
        · split
          · exact Or.inr (Or.inl rfl)
          · exact Or.inl rfl
  · intro h
    unfold uvicornParse at h
    split at h
    · simp only [Option.some.injEq] at h
      subst h
      dsimp only
      split
      · exact statusLevel_stdLevel _
      · exact levelMap_stdLevel _
    · simp at h
  · intro h
    unfold ginParse at h
    split at h
    · split at h
      · simp at h
      · simp only [Except.ok.injEq, Option.some.injEq] at h
        subst h
        exact statusLevel_stdLevel _
    · simp at h
  · intro h
    unfold nginxAccessParse at h
    split at h
    · simp only [Option.some.injEq] at h
      subst h
      exact statusLevel_stdLevel _
    · simp at h

/-- Witness for C4 (amended): the uvicorn clause applied to the
end-to-end example line of the spec. -/
theorem c4_witness :
    stdLevel
      (LogEntry.level
        { timestamp := ⟨2025, 12, 11, 20, 40, 0⟩
          service := "api"
          level := "INFO"
          message := "POST /api/v1/urls/159356/crawling → 200"
          extra := some
            [("method", .s "POST"), ("path", .s "/api/v1/urls/159356/crawling"),
             ("status", .i 200), ("client", .s "172.18.0.7:35800")] }) :=
  (c4_amended ⟨2025, 12, 11, 20, 40, 0⟩
    "INFO:     172.18.0.7:35800 - \"POST /api/v1/urls/159356/crawling HTTP/1.1\" 200 OK"
    _).2.2.1 rfl

/-! ## Claim C5 -/

/-- Claim C5 (counterexample): the celery parser extracts no structured
fields, yet its entries carry the dataclass default `extra` -- an empty
mapping (`some []`), not the absent value (`none`) the claim requires. -/
theorem c5_counterexample :
    ∃ e : LogEntry,
      celeryParse ⟨2025, 12, 11, 20, 40, 0⟩
        "[2025-12-11 20:40:00,123: INFO/MainProcess] Task done" = .ok (some e) ∧
      e.extra = some [] ∧
      (some [] : Option (List (String × PyVal))) ≠ none := by
  refine ⟨_, rfl, rfl, by simp⟩

/-- Claim C5 (amended): only the crawler parser distinguishes "no
structured data" as absent (`extra if extra else None`); its entries
never carry an empty mapping.  The celery, coordinator and nginx-error
parsers never extract structured fields and always leave the dataclass
default -- a present-but-empty mapping, which downstream truthiness
checks treat like absent.  The uvicorn, gin and nginx-access parsers
always extract a nonempty mapping. -/
theorem c5_amended (now : PyDateTime) (line : String) (e : LogEntry) :
    (crawlerParse now line = some e → e.extra ≠ some []) ∧
    (celeryParse now line = .ok (some e) → e.extra = some []) ∧
    (coordinatorParse line = some e → e.extra = some []) ∧
    (nginxErrorParse line = some e → e.extra = some []) ∧
    (uvicornParse now line = some e → ∃ m, e.extra = some m ∧ m ≠ []) ∧
    (ginParse line = .ok (some e) → ∃ m, e.extra = some m ∧ m ≠ []) ∧
    (nginxAccessParse now line = some e → ∃ m, e.extra = some m ∧ m ≠ []) := by
  refine ⟨?_, ?_, ?_, ?_, ?_, ?_, ?_⟩
  · intro h
    unfold crawlerParse at h
    dsimp only at h
    split at h
    · simp at h
    · split at h <;>
      · simp only [Option.some.injEq] at h
        subst h
        simp
  · intro h
    unfold celeryParse at h
    dsimp only at h
    split at h
    · simp at h
    · split at h
      · split at h
        · simp at h
        · simp only [Except.ok.injEq, Option.some.injEq] at h
          subst h
          rfl
      · simp only [Except.ok.injEq, Option.some.injEq] at h
        subst h
        rfl
  · intro h
    unfold coordinatorParse at h
    split at h
    · split at h
      · simp at h
      · simp only [Option.some.injEq] at h
        subst h
        rfl
    · simp at h
  · intro h
    unfold nginxErrorParse at h
    split at h
    · split at h
      · simp at h
      · split at h
        · simp at h
        · simp only [Option.some.injEq] at h
          subst h
          rfl
    · simp at h
  · intro h
    unfold uvicornParse at h
    split at h
    · simp only [Option.some.injEq] at h
      subst h
      simp
    · simp at h
  · intro h
    unfold ginParse at h
    split at h
    · split at h
      · simp at h
      · simp only [Except.ok.injEq, Option.some.injEq] at h
        subst h
        simp
    · simp at h
  · intro h
    unfold nginxAccessParse at h
    split at h
    · simp only [Option.some.injEq] at h
      subst h
      simp
    · simp at h

/-- Witness for C5 (amended): the crawler clause applied to a freeform
line without structured fields. -/
theorem c5_witness :
    LogEntry.extra
      { timestamp := ⟨2025, 12, 11, 20, 40, 0⟩
        service := "crawler"
        level := "INFO"
        message := "Crawling URL: https://example.com/page"
        extra := none } ≠ some [] :=
  (c5_amended ⟨2025, 12, 11, 20, 40, 0⟩ "Crawling URL: https://example.com/page" _).1 rfl

/-! ## Claim C6 -/

/-- Claim C6 (confirmed): the status-derived level mapping is the
monotone one -- status below 400 info, 400 to 499 warning, 500 and above
error -- and the parsers that derive a level from an HTTP status use
exactly it: gin and nginx-access entries always carry
`statusLevel status` for the status stored in their `extra` mapping, and
a uvicorn entry's level is `statusLevel status` whenever its normalized
literal token was INFO (otherwise the literal token wins, per the spec's
own table). -/
theorem c6_status_level (now : PyDateTime) (line : String) (e : LogEntry) :
    (∀ n : Nat,
      (n < 400 → statusLevel n = "INFO") ∧
      (400 ≤ n → n ≤ 499 → statusLevel n = "WARNING") ∧
      (500 ≤ n → statusLevel n = "ERROR")) ∧
    (ginParse line = .ok (some e) →
      ∃ n, lookupKey (e.extra.getD []) "status" = some (.i n) ∧ e.level = statusLevel n) ∧
    (nginxAccessParse now line = some e →
      ∃ n, lookupKey (e.extra.getD []) "status" = some (.i n) ∧ e.level = statusLevel n) ∧
    (uvicornParse now line = some e →
      ∃ n lvl0, lookupKey (e.extra.getD []) "status" = some (.i n) ∧
        e.level = (if lvl0 = "INFO" then statusLevel n else lvl0)) := by
  refine ⟨?_, ?_, ?_, ?_⟩
  · intro n
    refine ⟨fun h => ?_, fun h1 h2 => ?_, fun h => ?_⟩
    · unfold statusLevel
      rw [if_neg (by omega), if_neg (by omega)]
    · unfold statusLevel
      rw [if_neg (by omega), if_pos (by omega)]
    · unfold statusLevel
      rw [if_pos (by omega)]
  · intro h
    unfold ginParse at h
    split at h
    · split at h
      · simp at h
      · simp only [Except.ok.injEq, Option.some.injEq] at h
        subst h
        exact ⟨_, rfl, rfl⟩
    · simp at h
  · intro h
    unfold nginxAccessParse at h
    split at h
    · simp only [Option.some.injEq] at h
      subst h
      exact ⟨_, rfl, rfl⟩
    · simp at h
  · intro h
    unfold uvicornParse at h
    split at h
    · simp only [Option.some.injEq] at h
      subst h
      exact ⟨_, _, rfl, rfl⟩
    · simp at h

/-- Witness for C6: the three pure clauses at concrete statuses, and the
gin clause applied to the spec's 500-status end-to-end example line. -/
theorem c6_witness :
    statusLevel 200 = "INFO" ∧ statusLevel 404 = "WARNING" ∧ statusLevel 503 = "ERROR" ∧
    ∃ n,
      lookupKey
        ((LogEntry.extra
          { timestamp := ⟨2025, 12, 11, 20, 36, 0⟩
            service := "ai_evaluator"
            level := "ERROR"
            message := "GET /api/tags → 500"
            extra := some
              [("method", .s "GET"), ("path", .s "/api/tags"), ("status", .i 500)] }).getD [])
        "status" = some (.i n) ∧
      LogEntry.level
        { timestamp := ⟨2025, 12, 11, 20, 36, 0⟩
          service := "ai_evaluator"
          level := "ERROR"
          message := "GET /api/tags → 500"
          extra := some
            [("method", .s "GET"), ("path", .s "/api/tags"), ("status", .i 500)] } =
        statusLevel n := by
  have hgin :=
    (c6_status_level ⟨2025, 12, 11, 20, 36, 0⟩
      "[GIN] 2025/12/11 - 20:36:00 | 500 |     294.081us |             ::1 | GET      \"/api/tags\""
      _).2.1 rfl
  have h200 := ((c6_status_level ⟨2025, 12, 11, 20, 36, 0⟩ "" ⟨⟨1, 1, 1, 0, 0, 0⟩, "", "", "", none⟩).1 200).1 (by omega)
  have h404 := (((c6_status_level ⟨2025, 12, 11, 20, 36, 0⟩ "" ⟨⟨1, 1, 1, 0, 0, 0⟩, "", "", "", none⟩).1 404).2.1 (by omega)) (by omega)
  have h503 := ((c6_status_level ⟨2025, 12, 11, 20, 36, 0⟩ "" ⟨⟨1, 1, 1, 0, 0, 0⟩, "", "", "", none⟩).1 503).2.2 (by omega)
  exact ⟨h200, h404, h503, hgin⟩

/-! ## Claim C7 -/

/-- Claim C7 (confirmed): from a fresh aggregator, `errorHistory` never
grows beyond its configured capacity, whatever entries are recorded; and
recording capacity + 1 error-level entries leaves exactly the last
capacity of them, so the oldest (when not re-recorded later) is evicted
while the newest is present. -/
theorem c7_error_history (cE cL : Nat) (es : List LogEntry)
    (e0 lastE : LogEntry) (rest : List LogEntry) :
    ((es.foldl addLog (Dashboard.mkInit cE cL)).errors.length ≤ cE) ∧
    (1 ≤ cE → (e0 :: rest).length = cE + 1 →
      (∀ e ∈ e0 :: rest, e.level = "ERROR" ∨ e.level = "CRITICAL") →
      e0 ∉ rest → rest.getLast? = some lastE →
      ((e0 :: rest).foldl addLog (Dashboard.mkInit cE cL)).errors = rest ∧
      e0 ∉ ((e0 :: rest).foldl addLog (Dashboard.mkInit cE cL)).errors ∧
      lastE ∈ ((e0 :: rest).foldl addLog (Dashboard.mkInit cE cL)).errors) := by
  constructor
  · have h := foldl_addLog_errors_length (Dashboard.mkInit cE cL) es (by simp [Dashboard.mkInit])
    simpa [Dashboard.mkInit] using h
  · intro hcap hlen herr hfresh hlast
    have hform : ((e0 :: rest).foldl addLog (Dashboard.mkInit cE cL)).errors = rest := by
      rw [foldl_addLog_errors (Dashboard.mkInit cE cL) (e0 :: rest) herr]
      have h2 := foldl_pushBounded ((Dashboard.mkInit cE cL).max_errors) (e0 :: rest)
        ((Dashboard.mkInit cE cL).errors) (by simp [Dashboard.mkInit])
      rw [h2]
      simp only [Dashboard.mkInit, List.nil_append, List.length_nil, List.length_cons,
        Nat.zero_add]
      simp only [List.length_cons] at hlen
      have hdrop : rest.length + 1 - cE = 1 := by omega
      rw [hdrop]
      rfl
    refine ⟨hform, ?_, ?_⟩
    · rw [hform]
      exact hfresh
    · rw [hform]
      exact List.mem_of_mem_getLast? hlast

/-- Witness for C7: capacity 2 with three distinct error entries; the
first is evicted, the third is present. -/
theorem c7_witness :
    (([⟨⟨2025, 1, 1, 0, 0, 1⟩, "a", "ERROR", "m1", none⟩,
       ⟨⟨2025, 1, 1, 0, 0, 2⟩, "b", "ERROR", "m2", none⟩,
       ⟨⟨2025, 1, 1, 0, 0, 3⟩, "c", "CRITICAL", "m3", none⟩] :
        List LogEntry).foldl addLog (Dashboard.mkInit 2 5)).errors =
      [⟨⟨2025, 1, 1, 0, 0, 2⟩, "b", "ERROR", "m2", none⟩,
       ⟨⟨2025, 1, 1, 0, 0, 3⟩, "c", "CRITICAL", "m3", none⟩] ∧
    (⟨⟨2025, 1, 1, 0, 0, 1⟩, "a", "ERROR", "m1", none⟩ : LogEntry) ∉
      (([⟨⟨2025, 1, 1, 0, 0, 1⟩, "a", "ERROR", "m1", none⟩,
         ⟨⟨2025, 1, 1, 0, 0, 2⟩, "b", "ERROR", "m2", none⟩,
         ⟨⟨2025, 1, 1, 0, 0, 3⟩, "c", "CRITICAL", "m3", none⟩] :
          List LogEntry).foldl addLog (Dashboard.mkInit 2 5)).errors ∧
    (⟨⟨2025, 1, 1, 0, 0, 3⟩, "c", "CRITICAL", "m3", none⟩ : LogEntry) ∈
      (([⟨⟨2025, 1, 1, 0, 0, 1⟩, "a", "ERROR", "m1", none⟩,
         ⟨⟨2025, 1, 1, 0, 0, 2⟩, "b", "ERROR", "m2", none⟩,
         ⟨⟨2025, 1, 1, 0, 0, 3⟩, "c", "CRITICAL", "m3", none⟩] :
          List LogEntry).foldl addLog (Dashboard.mkInit 2 5)).errors := by
  have h := (c7_error_history 2 5 []
    ⟨⟨2025, 1, 1, 0, 0, 1⟩, "a", "ERROR", "m1", none⟩
    ⟨⟨2025, 1, 1, 0, 0, 3⟩, "c", "CRITICAL", "m3", none⟩
    [⟨⟨2025, 1, 1, 0, 0, 2⟩, "b", "ERROR", "m2", none⟩,
     ⟨⟨2025, 1, 1, 0, 0, 3⟩, "c", "CRITICAL", "m3", none⟩]).2
    (by omega) (by rfl) (by decide) (by decide) (by rfl)
  exact h

/-! ## Claim C8 -/

/-- Claim C8 (confirmed): `add_log` appends the entry to the bounded
recent-log deque; appends it to the bounded error deque exactly when the
level is ERROR or CRITICAL; maps the entry's service to healthy and no
other service's status changes; increments exactly the counter of the
path named in `extra` when one is present (all other counters keep their
value) and leaves the counters untouched when `extra` is absent or has
no path key; and leaves the external-stats snapshot and the configured
capacities unchanged. -/
theorem c8_add_log_frame (st : Dashboard) (e : LogEntry) :
    (addLog st e).logs = pushBounded st.max_logs e st.logs ∧
    ((e.level = "ERROR" ∨ e.level = "CRITICAL") →
      (addLog st e).errors = pushBounded st.max_errors e st.errors) ∧
    (¬ (e.level = "ERROR" ∨ e.level = "CRITICAL") → (addLog st e).errors = st.errors) ∧
    lookupKey (addLog st e).service_status e.service = some "healthy" ∧
    (∀ s, s ≠ e.service →
      lookupKey (addLog st e).service_status s = lookupKey st.service_status s) ∧
    (∀ m v, e.extra = some m → lookupKey m "path" = some v →
      counterVal (addLog st e).request_stats v = counterVal st.request_stats v + 1 ∧
      (∀ p, p ≠ v →
        counterVal (addLog st e).request_stats p = counterVal st.request_stats p)) ∧
    (e.extra = none → (addLog st e).request_stats = st.request_stats) ∧
    (∀ m, e.extra = some m → lookupKey m "path" = none →
      (addLog st e).request_stats = st.request_stats) ∧
    (addLog st e).ai_stats = st.ai_stats ∧
    (addLog st e).max_errors = st.max_errors ∧
    (addLog st e).max_logs = st.max_logs := by
  refine ⟨rfl, ?_, ?_, ?_, ?_, ?_, ?_, ?_, rfl, rfl, rfl⟩
  · intro h
    simp only [addLog]
    rw [if_pos h]
  · intro h
    simp only [addLog]
    rw [if_neg h]
  · simp only [addLog]
    exact lookupKey_setKey_self st.service_status e.service "healthy"
  · intro s hs
    simp only [addLog]
    exact lookupKey_setKey_ne st.service_status e.service "healthy" s hs
  · intro m v hm hv
    have hne : ¬ m.isEmpty := by
      cases m with
      | nil => simp [lookupKey] at hv
      | cons a l => simp
    simp only [addLog, hm]
    rw [if_neg hne, hv]
    exact ⟨counterVal_bump_self st.request_stats v,
      fun p hp => counterVal_bump_ne st.request_stats v p hp⟩
  · intro hm
    simp [addLog, hm]
  · intro m hm hv
    simp only [addLog, hm]
    split
    · rfl
    · rw [hv]

/-- Witness for C8: the path-counter clause applied to a concrete state
and an entry whose `extra` names a path. -/
theorem c8_witness :
    counterVal
      (addLog
        ⟨[], [], [(.s "/health", 3)], [("nginx", "healthy")], 10, 5, none⟩
        ⟨⟨2025, 1, 1, 0, 0, 0⟩, "api", "INFO", "GET /health → 200",
          some [("method", .s "GET"), ("path", .s "/health"), ("status", .i 200)]⟩).request_stats
      (.s "/health") =
      counterVal [(.s "/health", 3)] (.s "/health") + 1 ∧
    ∀ p, p ≠ PyVal.s "/health" →
      counterVal
        (addLog
          ⟨[], [], [(.s "/health", 3)], [("nginx", "healthy")], 10, 5, none⟩
          ⟨⟨2025, 1, 1, 0, 0, 0⟩, "api", "INFO", "GET /health → 200",
            some [("method", .s "GET"), ("path", .s "/health"), ("status", .i 200)]⟩).request_stats
        p =
        counterVal [(.s "/health", 3)] p := by
  have h := (c8_add_log_frame
    ⟨[], [], [(.s "/health", 3)], [("nginx", "healthy")], 10, 5, none⟩
    ⟨⟨2025, 1, 1, 0, 0, 0⟩, "api", "INFO", "GET /health → 200",
      some [("method", .s "GET"), ("path", .s "/health"), ("status", .i 200)]⟩).2.2.2.2.2.1
    [("method", .s "GET"), ("path", .s "/health"), ("status", .i 200)]
    (.s "/health") rfl (by rfl)
  exact h

/-! ## Claim C9 -/

/-- Claim C9 (counterexample): a successful poll (status 200) whose JSON
body is the empty object leaves a present snapshot (`some []`, not
absent), yet the rendered panel still shows the connecting state,
because `render_ai_progress` tests `if not self.ai_stats` and an empty
dict is falsy -- so "connecting is shown exactly when the snapshot is
absent" is false. -/
theorem c9_counterexample :
    (fetchAiStats (Dashboard.mkInit 10 5) (.resp 200 [])).ai_stats = some [] ∧
    (some [] : Option (List (String × Nat))) ≠ none ∧
    (renderAiProgress (fetchAiStats (Dashboard.mkInit 10 5) (.resp 200 [])) .exc).2 =
      .connecting := by
  exact ⟨rfl, by simp, rfl⟩

/-- Claim C9 (amended): a failed poll (exception, timeout or non-200
status) leaves the whole dashboard state -- in particular the stored
snapshot -- exactly as it was; starting from a fresh aggregator the
snapshot is absent only as long as no poll has succeeded; and the
rendered panel shows the connecting state exactly when the post-fetch
snapshot is absent or an empty object (Python falsiness of an empty
dict). -/
theorem c9_amended (st : Dashboard) (o : FetchOutcome) (cE cL : Nat) (ops : List AggOp) :
    (o.failed → fetchAiStats st o = st) ∧
    ((ops.foldl aggStep (Dashboard.mkInit cE cL)).ai_stats = none →
      ∀ o', AggOp.poll o' ∈ ops → o'.failed) ∧
    ((renderAiProgress st o).2 = .connecting ↔
      (fetchAiStats st o).ai_stats = none ∨ (fetchAiStats st o).ai_stats = some []) := by
  refine ⟨?_, ?_, ?_⟩
  · intro hf
    cases o with
    | exc => rfl
    | resp status body =>
      simp only [FetchOutcome.failed] at hf
      simp [fetchAiStats, hf]
  · have key : ∀ (ops : List AggOp) (st0 : Dashboard),
        (ops.foldl aggStep st0).ai_stats = none →
        ∀ o', AggOp.poll o' ∈ ops → o'.failed := by
      intro ops
      induction ops with
      | nil => intro st0 _ o' ho'; simp at ho'
      | cons op rest ih =>
        intro st0 hnone o' ho'
        rw [List.foldl_cons] at hnone
        rcases List.mem_cons.mp ho' with heq | hmem
        · subst heq
          by_contra hok
          have h200 : ∃ body, o' = .resp 200 body := by
            cases o' with
            | exc => exact absurd trivial hok
            | resp status body =>
              simp only [FetchOutcome.failed] at hok
              push_neg at hok
              exact ⟨body, by rw [hok]⟩
          obtain ⟨body, rfl⟩ := h200
          have hset : (aggStep st0 (.poll (.resp 200 body))).ai_stats = some body := by
            simp [aggStep, fetchAiStats]
          have hpres : ∀ (l : List AggOp) (s : Dashboard) (b : List (String × Nat)),
              s.ai_stats = some b → (l.foldl aggStep s).ai_stats ≠ none := by
            intro l
            induction l with
            | nil => intro s b hb; simp [hb]
            | cons op2 rest2 ih2 =>
              intro s b hb
              rw [List.foldl_cons]
              cases op2 with
              | record e =>
                exact ih2 (aggStep s (.record e)) b (by simpa [aggStep, addLog] using hb)
              | poll o2 =>
                cases o2 with
                | exc => exact ih2 _ b (by simpa [aggStep, fetchAiStats] using hb)
                | resp status2 body2 =>
                  by_cases h2 : status2 = 200
                  · exact ih2 _ body2 (by simp [aggStep, fetchAiStats, h2])
                  · exact ih2 _ b (by simpa [aggStep, fetchAiStats, h2] using hb)
          exact hpres rest _ body hset hnone
        · exact ih (aggStep st0 op) hnone o' hmem
    exact key ops (Dashboard.mkInit cE cL)
  · unfold renderAiProgress
    cases hai : (fetchAiStats st o).ai_stats with
    | none => simp [hai]
    | some body =>
      cases body with
      | nil => simp [hai]
      | cons kv rest => simp [hai]

/-- Witness for C9 (amended): a timed-out poll against a state holding a
snapshot leaves it untouched. -/
theorem c9_witness :
    fetchAiStats ⟨[], [], [], [], 10, 5, some [("pending_pages", 7)]⟩ .exc =
      ⟨[], [], [], [], 10, 5, some [("pending_pages", 7)]⟩ := by
  exact (c9_amended ⟨[], [], [], [], 10, 5, some [("pending_pages", 7)]⟩ .exc 10 5 []).1 trivial

/-! ## Claim C10 -/

/-- Claim C10 (confirmed): recording an entry maps its service to healthy
immediately, and once a service is healthy no aggregator operation --
recording any entry or polling the external stats endpoint (renders only
read the collections) -- ever maps it to any other value: `add_log` only
writes "healthy" and nothing else ever writes `service_status`. -/
theorem c10_health_monotone (st : Dashboard) (e : LogEntry) (s : String) (ops : List AggOp) :
    lookupKey (addLog st e).service_status e.service = some "healthy" ∧
    (lookupKey st.service_status s = some "healthy" →
      lookupKey (ops.foldl aggStep st).service_status s = some "healthy") := by
  constructor
  · simp only [addLog]
    exact lookupKey_setKey_self st.service_status e.service "healthy"
  · have key : ∀ (ops : List AggOp) (st0 : Dashboard),
        lookupKey st0.service_status s = some "healthy" →
        lookupKey (ops.foldl aggStep st0).service_status s = some "healthy" := by
      intro ops
      induction ops with
      | nil => intro st0 h; exact h
      | cons op rest ih =>
        intro st0 h
        rw [List.foldl_cons]
        refine ih (aggStep st0 op) ?_
        cases op with
        | record e2 =>
          simp only [aggStep, addLog]
          by_cases hs : s = e2.service
          · subst hs
            exact lookupKey_setKey_self st0.service_status e2.service "healthy"
          · rw [lookupKey_setKey_ne st0.service_status e2.service "healthy" s hs]
            exact h
        | poll o =>
          cases o with
          | exc => exact h
          | resp status body =>
            simp only [aggStep, fetchAiStats]
            split
            · exact h
            · exact h
    exact key ops st

/-- Witness for C10: a service marked healthy stays healthy across a
later entry from another service and a successful poll. -/
theorem c10_witness :
    lookupKey
      (([AggOp.record ⟨⟨2025, 1, 1, 0, 0, 0⟩, "nginx", "INFO", "m", none⟩,
         AggOp.poll (.resp 200 [("workers_active", 2)])].foldl aggStep
        ⟨[], [], [], [("celery", "healthy")], 10, 5, none⟩).service_status)
      "celery" = some "healthy" := by
  exact (c10_health_monotone ⟨[], [], [], [("celery", "healthy")], 10, 5, none⟩
    ⟨⟨2025, 1, 1, 0, 0, 0⟩, "nginx", "INFO", "m", none⟩ "celery"
    [AggOp.record ⟨⟨2025, 1, 1, 0, 0, 0⟩, "nginx", "INFO", "m", none⟩,
     AggOp.poll (.resp 200 [("workers_active", 2)])]).2 rfl
